import Mathlib

/-!
Verification of the MLB play-by-play replay simulator.

The system under study consists of:
* `API.py` — a session store (`GAME_SESSIONS`), a loader (`load_game_session`)
  and a cursor-advancing replay endpoint (`replay_game_plays`) that slices a
  stored play list down to the events revealed so far;
* `test.py` — a polling consumer (`fetch_and_process_game_data`) that extracts
  the last revealed play, deduplicates by at-bat index, and resolves the
  batting team from the half-inning label (`get_current_team_name`).

Each definition below models the homonymous piece of the Python source; the
JSON payloads are modelled by structures carrying exactly the fields the
program reads.
-/

namespace HomeRunApple

/-- The `about` object of a play: the program reads `halfInning` and
`atBatIndex`. A missing key (`dict.get` returning `None`) is `none`. -/
structure About where
  halfInning : Option String
  atBatIndex : Option Int
deriving Repr, DecidableEq

/-- The `result` object of a play; the consumer reads only `description`. -/
structure PlayResult where
  description : Option String
deriving Repr, DecidableEq

/-- The `matchup` object: the consumer reads `batter.fullName`; the raw
batting-team field is carried in the data but never read by the code. -/
structure Matchup where
  batterFullName : Option String
  battingTeam : Option String
deriving Repr, DecidableEq

/-- One element of `allPlays`. `playEvents` is the list of atomic events
(each event's payload is irrelevant to the modelled code, so events are
numbers). `result` is absent (`none`) while the at-bat is in progress. -/
structure Play where
  about : About
  result : Option PlayResult
  matchup : Matchup
  playEvents : List Nat
deriving Repr, DecidableEq

/-- The pair of team names kept in a session (`session["teams"]`) and in the
consumer's `TEAM_NAMES` global. -/
structure TeamNames where
  home : String
  away : String
deriving Repr, DecidableEq

/-- One entry of `GAME_SESSIONS`. -/
structure Session where
  full_plays : List Play
  total_events : Nat
  cursor : Nat
  teams : TeamNames
deriving Repr, DecidableEq

/-- `sum(len(play.get("playEvents", [])) for play in source_plays)` in
`load_game_session`. -/
def totalEventsOf (ps : List Play) : Nat :=
  (ps.map (fun p => p.playEvents.length)).sum

/-- The slicing loop of `replay_game_plays` (step 3), with the running
`events_processed` accumulator.  Scenario A appends the play in full and
continues; Scenario B appends a truncated copy and breaks; Scenario C
breaks. -/
def sliceFrom (current_cursor : Nat) : List Play → Nat → List Play
  | [], _ => []
  | play :: rest, events_processed =>
    let num_events := play.playEvents.length
    if events_processed + num_events ≤ current_cursor then
      play :: sliceFrom current_cursor rest (events_processed + num_events)
    else if events_processed < current_cursor ∧ current_cursor < events_processed + num_events then
      [{ play with playEvents := play.playEvents.take (current_cursor - events_processed) }]
    else
      []

/-- The simulated `allPlays` array built by `replay_game_plays` from the
stored plays and the current cursor (`events_processed` starts at 0). -/
def buildSimulatedPlays (source_plays : List Play) (current_cursor : Nat) : List Play :=
  sliceFrom current_cursor source_plays 0

/-- The response body of `replay_game_plays`: teams, the simulated plays,
the cursor, and the `"COMPLETE"` status flag when the cursor is exhausted. -/
structure TickResponse where
  teams : TeamNames
  allPlays : List Play
  current_cursor : Nat
  status : Option String
deriving Repr, DecidableEq

/-- Steps 2–4 of `replay_game_plays` on an existing session (the part after
initialization): advance the cursor by one while it is below
`total_events`, rebuild the simulated play list at the new cursor, and
attach `status = "COMPLETE"` once the cursor has reached `total_events`.
Returns the updated session (the Python code mutates `session["cursor"]`
in place) together with the response body. -/
def replay_tick (session : Session) : Session × TickResponse :=
  let cursor' :=
    if session.cursor < session.total_events then session.cursor + 1 else session.cursor
  let session' := { session with cursor := cursor' }
  let simulated_plays := buildSimulatedPlays session.full_plays cursor'
  let response : TickResponse :=
    { teams := session.teams
      allPlays := simulated_plays
      current_cursor := cursor'
      status := if session.total_events ≤ cursor' then some "COMPLETE" else none }
  (session', response)

/-- `n` successive `replay_tick` calls on a session, keeping the state. -/
def tickN (session : Session) : Nat → Session
  | 0 => session
  | n + 1 => (replay_tick (tickN session n)).1

/-- The in-memory `GAME_SESSIONS` dictionary, as an association list with
first-match lookup. -/
abbrev Store : Type := List (Nat × Session)

/-- Dictionary lookup `GAME_SESSIONS.get(game_pk)`. -/
def storeFind : Store → Nat → Option Session
  | [], _ => none
  | (k, v) :: rest, game_pk => if k = game_pk then some v else storeFind rest game_pk

/-- Dictionary assignment `GAME_SESSIONS[game_pk] = session` (the new
binding shadows any previous one under first-match lookup). -/
def storeSet (store : Store) (game_pk : Nat) (session : Session) : Store :=
  (game_pk, session) :: store

/-- The parts of the upstream JSON feed that `load_game_session` reads:
`gameData.teams.{home,away}.name` (each `none` when any step of the
`dict.get` chain falls back to its default) and `liveData.plays.allPlays`. -/
structure GameFeed where
  homeName : Option String
  awayName : Option String
  allPlays : List Play
deriving Repr, DecidableEq

/-- Outcome of the upstream HTTP GET performed by `load_game_session`:
either a response with a status code and (parsed) body, or a transport
failure raised by the HTTP client. -/
inductive FetchOutcome where
  | response (status : Nat) (body : GameFeed)
  | transportError
deriving Repr, DecidableEq

/-- How a failed load surfaces to the caller: the explicit
`HTTPException(status_code=404, detail="Game not found")` raised on any
non-200 status, or the unhandled exception propagated from the HTTP
client on a transport failure. -/
inductive LoadError where
  | httpException (status : Nat) (detail : String)
  | unhandledTransport
deriving Repr, DecidableEq

/-- `load_game_session`: fetch the feed; on any non-200 status raise
`HTTPException(404, "Game not found")`; otherwise extract the team names
(with their `dict.get` defaults), compute `total_events`, and store a fresh
session with `cursor = 0`.  The store assignment is the last step, so a
failure leaves the store exactly as it was.  Returns the store after the
call and the error, if any. -/
def load_game_session (store : Store) (game_pk : Nat) (fetch : FetchOutcome) :
    Store × Option LoadError :=
  match fetch with
  | .transportError => (store, some .unhandledTransport)
  | .response status body =>
    if status ≠ 200 then
      (store, some (.httpException 404 "Game not found"))
    else
      let home_team_name := body.homeName.getD "Unknown Home Team"
      let away_team_name := body.awayName.getD "Unknown Away Team"
      let source_plays := body.allPlays
      let total_events := totalEventsOf source_plays
      (storeSet store game_pk
        { full_plays := source_plays
          total_events := total_events
          cursor := 0
          teams := { home := home_team_name, away := away_team_name } },
       none)

/-! ### The consumer (`test.py`) -/

/-- `data.get("teams", {})` as seen by the consumer: each label may be
missing (`none`); Python truthiness also rejects the empty string. -/
structure RootTeams where
  home : Option String
  away : Option String
deriving Repr, DecidableEq

/-- Python truthiness of an optional string: `None` and `""` are falsy. -/
def truthyStr : Option String → Bool
  | none => false
  | some s => !(s == "")

/-- The `if half_inning == "top" ... elif ... else` chain at the end of
`get_current_team_name`. -/
def battingName (names : TeamNames) (half_inning : Option String) : String :=
  if half_inning = some "top" then names.away
  else if half_inning = some "bottom" then names.home
  else "Unknown Team"

/-- `get_current_team_name`: update the global `TEAM_NAMES` from the
response's root `teams` object when both labels are truthy, then resolve
the batting side from the last play's `about.halfInning`.  Returns the
resolved name together with the updated global. -/
def get_current_team_name (data_teams : RootTeams) (team_names : TeamNames)
    (last_play : Play) : String × TeamNames :=
  let team_names' :=
    if truthyStr data_teams.home && truthyStr data_teams.away then
      { home := data_teams.home.getD "", away := data_teams.away.getD "" }
    else team_names
  (battingName team_names' last_play.about.halfInning, team_names')

/-- `"Home Run" in description`: substring containment on the character
list. -/
def strContains (hay needle : String) : Bool :=
  hay.data.tails.any (fun t => needle.data.isPrefixOf t)

/-- The consumer's module-level mutable state: the
`last_processed_at_bat_index` global (a Python int or `None`; initially
the int `-1`) and the `TEAM_NAMES` global. -/
structure ConsumerState where
  last_processed_at_bat_index : Option Int
  team_names : TeamNames
deriving Repr, DecidableEq

/-- The initial values of the consumer's globals. -/
def consumerInit : ConsumerState :=
  { last_processed_at_bat_index := some (-1)
    team_names := { home := "Unknown Home", away := "Unknown Away" } }

/-- What one call of `fetch_and_process_game_data` does, beyond updating
the globals.  `emit` covers both print branches (the home-run banner and
the plain `FINAL RESULT` log line): each records the at-bat index into
`last_processed_at_bat_index` and reports the delta. -/
inductive DetectorOutput where
  | gameComplete
  | waitingForPlays
  | skipAlreadyProcessed
  | emit (homeRun : Bool) (atBatIndex : Option Int) (team : String) (desc : String)
  | noDescription
  | inProgress (atBatIndex : Option Int) (team : String) (batter : String) (pitchCount : Nat)
deriving Repr, DecidableEq

/-- `fetch_and_process_game_data` on an already-fetched response body:
exit on `status == "COMPLETE"`; wait while `allPlays` is empty; otherwise
look at the last play, resolve the batting team (updating `TEAM_NAMES`),
and apply the decision logic — skip when the at-bat index equals
`last_processed_at_bat_index`, emit (recording the index) when a truthy
`result.description` exists, report in-progress when `result` is absent. -/
def fetch_and_process_game_data (st : ConsumerState) (data : TickResponse) :
    ConsumerState × DetectorOutput :=
  if data.status = some "COMPLETE" then
    (st, .gameComplete)
  else
    match data.allPlays.getLast? with
    | none => (st, .waitingForPlays)
    | some last_play =>
      let at_bat_index := last_play.about.atBatIndex
      let batter_name := last_play.matchup.batterFullName.getD "Unknown Batter"
      let resolved :=
        get_current_team_name { home := some data.teams.home, away := some data.teams.away }
          st.team_names last_play
      let batting_team_name := resolved.1
      let team_names' := resolved.2
      match last_play.result with
      | some play_result =>
        if at_bat_index = st.last_processed_at_bat_index then
          ({ st with team_names := team_names' }, .skipAlreadyProcessed)
        else
          let description := play_result.description.getD ""
          if description ≠ "" then
            ({ last_processed_at_bat_index := at_bat_index, team_names := team_names' },
             .emit (strContains description "Home Run") at_bat_index batting_team_name description)
          else
            ({ st with team_names := team_names' }, .noDescription)
      | none =>
        ({ st with team_names := team_names' },
         .inProgress at_bat_index batting_team_name batter_name last_play.playEvents.length)

/-- Response of the consumer's `t`-th poll (0-based) against a session
that starts in state `s0`: each poll triggers one `replay_tick`. -/
def pollResponse (s0 : Session) (t : Nat) : TickResponse :=
  (replay_tick (tickN s0 t)).2

/-- The consumer's globals before its `t`-th poll. -/
def consumerStateAt (s0 : Session) : Nat → ConsumerState
  | 0 => consumerInit
  | t + 1 => (fetch_and_process_game_data (consumerStateAt s0 t) (pollResponse s0 t)).1

/-- What the consumer's `t`-th poll reports. -/
def consumerOutputAt (s0 : Session) (t : Nat) : DetectorOutput :=
  (fetch_and_process_game_data (consumerStateAt s0 t) (pollResponse s0 t)).2

/-- The at-bat index recorded by an `emit` output, if the output is one. -/
def emitIndex? : DetectorOutput → Option (Option Int)
  | .emit _ i _ _ => some i
  | _ => none

/-! ### The spec-side revealed view

`specRevealedView` transcribes the spec's slicing rule: it walks the plays
in order with the budget of still-unspent revealed events; a play whose
event count fits the budget is copied in full and the budget shrinks; a
play the budget lands strictly inside is truncated and ends the view; a
play the budget has not reached ends the view with nothing appended. -/

/-- The revealed view as the spec words it (subtractive form of the walk):
every play whose cumulative event count is at most the cursor is copied in
full; a play the cursor lands strictly inside is truncated to the cursor's
remainder; nothing beyond is included, and a cursor on a play boundary
takes the first branch (the boundary play in full, never an empty partial
copy of the next play). -/
def specRevealedView : List Play → Nat → List Play
  | [], _ => []
  | p :: rest, c =>
    let n := p.playEvents.length
    if n ≤ c then p :: specRevealedView rest (c - n)
    else if 0 < c then [{ p with playEvents := p.playEvents.take c }]
    else []

/-- Equality on every field of a play except its event list. -/
def MetaEq (p q : Play) : Prop :=
  p.about = q.about ∧ p.result = q.result ∧ p.matchup = q.matchup

/-- `p` is `q` with its event list truncated to some initial segment (and
every other field identical); equality is the degenerate truncation. -/
def PlayPrefixOf (p q : Play) : Prop :=
  p = { q with playEvents := q.playEvents.take p.playEvents.length }

/-- One play list is a play-wise prefix of another: every play but the last
coincides with the play at the same position, and the last is itself or a
truncated copy of the play at its position. -/
inductive ViewPrefixOf : List Play → List Play → Prop
  | nil (ys : List Play) : ViewPrefixOf [] ys
  | last (p q : Play) (ys : List Play) : PlayPrefixOf p q → ViewPrefixOf [p] (q :: ys)
  | cons (p : Play) (xs ys : List Play) : ViewPrefixOf xs ys → ViewPrefixOf (p :: xs) (p :: ys)

/-! ### Concrete data for scenarios and witnesses -/

/-- First play of the spec's scenario: 3 events, a resolved at-bat. -/
def scenarioPlay0 : Play :=
  { about := { halfInning := some "top", atBatIndex := some 0 }
    result := some { description := some "Single to center." }
    matchup := { batterFullName := some "A. Hitter", battingTeam := some "stale" }
    playEvents := [0, 1, 2] }

/-- Second play of the spec's scenario: 2 events, a resolved at-bat. -/
def scenarioPlay1 : Play :=
  { about := { halfInning := some "bottom", atBatIndex := some 1 }
    result := some { description := some "Home Run to left field." }
    matchup := { batterFullName := some "B. Slugger", battingTeam := some "stale" }
    playEvents := [3, 4] }

/-- The spec's scenario timeline: event counts `[3, 2]`, 5 total events. -/
def scenarioPlays : List Play := [scenarioPlay0, scenarioPlay1]

/-- A freshly loaded session over the scenario timeline. -/
def scenarioSession : Session :=
  { full_plays := scenarioPlays
    total_events := 5
    cursor := 0
    teams := { home := "Home Club", away := "Away Club" } }

/-- An upstream feed body with nothing in it. -/
def emptyFeed : GameFeed := { homeName := none, awayName := none, allPlays := [] }

/-! ### Interleaving model for concurrent initialization (claim C7)

`replay_game_plays` runs on an async event loop: code between `await`
points is atomic, and its only suspension point before the session exists
is the upstream fetch inside `load_game_session`.  A handler for an
uninitialized identifier therefore consists of two atomic segments: the
membership check `game_pk not in GAME_SESSIONS` (which, finding nothing,
issues the upstream fetch and suspends) and, when the response arrives,
the session-store assignment. -/

/-- Where one request handler stands in the init portion of
`replay_game_plays`. -/
inductive TaskPhase where
  | ready
  | awaitingFetch
  | finished
deriving Repr, DecidableEq

/-- Shared state of two concurrent handlers for the same identifier: is
the session stored yet, and how many upstream fetches have been issued. -/
structure ConcState where
  sessionPresent : Bool
  fetchCount : Nat
  phase1 : TaskPhase
  phase2 : TaskPhase
deriving Repr, DecidableEq

/-- Run the next atomic segment of one of the two handlers (`false` is the
first handler, `true` the second). A `ready` handler checks membership:
if the session is present it skips the load, otherwise it issues a fetch
and suspends. An `awaitingFetch` handler receives the response and stores
the session. -/
def concStep (s : ConcState) (task : Bool) : ConcState :=
  let phase := if task then s.phase2 else s.phase1
  let next :=
    match phase with
    | .ready =>
      if s.sessionPresent then (s, TaskPhase.finished)
      else ({ s with fetchCount := s.fetchCount + 1 }, TaskPhase.awaitingFetch)
    | .awaitingFetch => ({ s with sessionPresent := true }, TaskPhase.finished)
    | .finished => (s, TaskPhase.finished)
  if task then { next.1 with phase2 := next.2 } else { next.1 with phase1 := next.2 }

/-- Execute a schedule: at each step the named handler runs its next
atomic segment. -/
def runSchedule (init : ConcState) (sched : List Bool) : ConcState :=
  sched.foldl concStep init

/-- Both handlers start at their membership check, no session, no fetch. -/
def concInit : ConcState :=
  { sessionPresent := false, fetchCount := 0, phase1 := .ready, phase2 := .ready }

/-! ### Lemmas -/

theorem sliceFrom_eq_spec (current_cursor : Nat) :
    ∀ (ps : List Play) (e : Nat), e ≤ current_cursor →
      sliceFrom current_cursor ps e = specRevealedView ps (current_cursor - e) := by
  intro ps
  induction ps with
  | nil => intro e _; rfl
  | cons p rest ih =>
    intro e he
    simp only [sliceFrom, specRevealedView]
    by_cases hA : e + p.playEvents.length ≤ current_cursor
    · have hn : p.playEvents.length ≤ current_cursor - e := by omega
      rw [if_pos hA, if_pos hn, ih (e + p.playEvents.length) hA]
      have : current_cursor - e - p.playEvents.length =
          current_cursor - (e + p.playEvents.length) := by omega
      rw [this]
    · rw [if_neg hA]
      have hn : ¬ p.playEvents.length ≤ current_cursor - e := by omega
      rw [if_neg hn]
      by_cases hB : e < current_cursor ∧ current_cursor < e + p.playEvents.length
      · rw [if_pos hB]
        have hc : 0 < current_cursor - e := by omega
        rw [if_pos hc]
      · rw [if_neg hB]
        have hc : ¬ 0 < current_cursor - e := by omega
        rw [if_neg hc]

/-- The slicing loop of `replay_game_plays` computes exactly the spec's
revealed view, for every cursor. -/
theorem buildSimulatedPlays_eq_spec (ps : List Play) (c : Nat) :
    buildSimulatedPlays ps c = specRevealedView ps c := by
  have := sliceFrom_eq_spec c ps 0 (Nat.zero_le c)
  simpa [buildSimulatedPlays] using this

/-- Once the cursor covers the total event count, the revealed view is the
stored play list itself. -/
theorem specRevealedView_full : ∀ (ps : List Play) (c : Nat),
    totalEventsOf ps ≤ c → specRevealedView ps c = ps := by
  intro ps
  induction ps with
  | nil => intro c _; rfl
  | cons p rest ih =>
    intro c hc
    have htot : p.playEvents.length + totalEventsOf rest ≤ c := by
      simpa [totalEventsOf, List.map_cons, List.sum_cons] using hc
    have hn : p.playEvents.length ≤ c := by omega
    simp only [specRevealedView, if_pos hn]
    rw [ih (c - p.playEvents.length) (by omega)]

/-- The revealed view never contains more plays than the stored list. -/
theorem specRevealedView_length_le : ∀ (ps : List Play) (c : Nat),
    (specRevealedView ps c).length ≤ ps.length := by
  intro ps
  induction ps with
  | nil => intro c; simp [specRevealedView]
  | cons p rest ih =>
    intro c
    simp only [specRevealedView]
    by_cases hn : p.playEvents.length ≤ c
    · simp only [if_pos hn, List.length_cons]
      exact Nat.succ_le_succ (ih _)
    · by_cases hc : 0 < c
      · simp [if_neg hn, if_pos hc]
      · simp [if_neg hn, if_neg hc]

/-- A cursor no larger than another yields a view no longer than its. -/
theorem specRevealedView_length_mono : ∀ (ps : List Play) (c c' : Nat), c ≤ c' →
    (specRevealedView ps c).length ≤ (specRevealedView ps c').length := by
  intro ps
  induction ps with
  | nil => intro c c' _; simp [specRevealedView]
  | cons p rest ih =>
    intro c c' hcc
    simp only [specRevealedView]
    by_cases hn : p.playEvents.length ≤ c
    · have hn' : p.playEvents.length ≤ c' := le_trans hn hcc
      simp only [if_pos hn, if_pos hn', List.length_cons]
      exact Nat.succ_le_succ (ih _ _ (by omega))
    · by_cases hn' : p.playEvents.length ≤ c'
      · by_cases hc : 0 < c
        · simp only [if_neg hn, if_pos hc, if_pos hn']
          simp
        · simp [if_neg hn, if_neg hc, if_pos hn']
      · by_cases hc : 0 < c
        · have hc' : 0 < c' := by omega
          simp [if_neg hn, if_pos hc, if_neg hn', if_pos hc']
        · simp [if_neg hn, if_neg hc, if_neg hn']

theorem metaEq_refl (p : Play) : MetaEq p p := ⟨rfl, rfl, rfl⟩

/-- Element by element, the revealed view differs from the stored list only
in the event lists: the `j`-th revealed play has the `j`-th stored play's
`about`, `result` and `matchup`. -/
theorem specRevealedView_get_meta : ∀ (ps : List Play) (c : Nat) (j : Nat) (p q : Play),
    (specRevealedView ps c)[j]? = some p → ps[j]? = some q → MetaEq p q := by
  intro ps
  induction ps with
  | nil => intro c j p q h h'; simp [specRevealedView] at h
  | cons hd rest ih =>
    intro c j p q h h'
    simp only [specRevealedView] at h
    by_cases hn : hd.playEvents.length ≤ c
    · rw [if_pos hn] at h
      match j with
      | 0 =>
        simp only [List.getElem?_cons_zero, Option.some.injEq] at h h'
        subst h; subst h'
        exact metaEq_refl hd
      | j + 1 =>
        simp only [List.getElem?_cons_succ] at h h'
        exact ih _ j p q h h'
    · rw [if_neg hn] at h
      by_cases hc : 0 < c
      · rw [if_pos hc] at h
        match j with
        | 0 =>
          simp only [List.getElem?_cons_zero, Option.some.injEq] at h h'
          subst h; subst h'
          exact ⟨rfl, rfl, rfl⟩
        | j + 1 => simp at h
      · rw [if_neg hc] at h; simp at h

theorem totalEventsOf_nil : totalEventsOf [] = 0 := rfl

theorem totalEventsOf_cons (p : Play) (ps : List Play) :
    totalEventsOf (p :: ps) = p.playEvents.length + totalEventsOf ps := by
  simp [totalEventsOf]

theorem totalEventsOf_take_succ_cons (p : Play) (ps : List Play) (k : Nat) :
    totalEventsOf ((p :: ps).take (k + 1)) = p.playEvents.length + totalEventsOf (ps.take k) := by
  simp [List.take_succ_cons, totalEventsOf_cons]

theorem totalEventsOf_append (xs ys : List Play) :
    totalEventsOf (xs ++ ys) = totalEventsOf xs + totalEventsOf ys := by
  simp [totalEventsOf]

theorem totalEventsOf_take_succ (ps : List Play) (k : Nat) (hk : k < ps.length) :
    totalEventsOf (ps.take (k + 1)) =
      totalEventsOf (ps.take k) + (ps.get ⟨k, hk⟩).playEvents.length := by
  rw [List.take_succ, totalEventsOf_append]
  congr 1
  rw [List.getElem?_eq_getElem hk]
  simp [totalEventsOf]

/-- When the cursor lands strictly inside the `k`-th play, the revealed
view is the first `k` plays in full followed by one copy of the `k`-th
play truncated to the cursor's remainder. -/
theorem specRevealedView_inside : ∀ (ps : List Play) (k c : Nat) (hk : k < ps.length),
    totalEventsOf (ps.take k) < c → c < totalEventsOf (ps.take (k + 1)) →
    specRevealedView ps c =
      ps.take k ++
        [{ ps.get ⟨k, hk⟩ with
            playEvents := (ps.get ⟨k, hk⟩).playEvents.take (c - totalEventsOf (ps.take k)) }] := by
  intro ps
  induction ps with
  | nil => intro k c hk _ _; simp at hk
  | cons p rest ih =>
    intro k c hk h2 h3
    match k with
    | 0 =>
      have hc0 : 0 < c := by simpa [totalEventsOf] using h2
      have hcn : c < p.playEvents.length := by
        simpa [totalEventsOf_take_succ_cons, totalEventsOf] using h3
      simp only [specRevealedView]
      rw [if_neg (by omega), if_pos hc0]
      simp [totalEventsOf]
    | k + 1 =>
      have h2' : p.playEvents.length + totalEventsOf (rest.take k) < c := by
        simpa [totalEventsOf_take_succ_cons] using h2
      have h3' : c < p.playEvents.length + totalEventsOf (rest.take (k + 1)) := by
        simpa [totalEventsOf_take_succ_cons] using h3
      have hn : p.playEvents.length ≤ c := by omega
      have hk' : k < rest.length := by simpa using hk
      simp only [specRevealedView]
      rw [if_pos hn]
      rw [ih k (c - p.playEvents.length) hk' (by omega) (by omega)]
      have harith : c - p.playEvents.length - totalEventsOf (rest.take k) =
          c - totalEventsOf ((p :: rest).take (k + 1)) := by
        rw [totalEventsOf_take_succ_cons]; omega
      rw [harith]
      simp [List.take_succ_cons]

theorem playPrefixOf_of_take (q : Play) (c : Nat) :
    PlayPrefixOf { q with playEvents := q.playEvents.take c } q := by
  simp only [PlayPrefixOf, List.length_take]
  have : min (min c q.playEvents.length) q.playEvents.length = min c q.playEvents.length := by
    omega
  simp [List.take_take, this]

theorem playPrefixOf_refl (p : Play) : PlayPrefixOf p p := by
  simp [PlayPrefixOf]

/-- Raising the cursor only extends the revealed view: the view at the
smaller cursor is a play-wise prefix of the view at the larger one. -/
theorem specRevealedView_prefixOf : ∀ (ps : List Play) (c c' : Nat), c ≤ c' →
    ViewPrefixOf (specRevealedView ps c) (specRevealedView ps c') := by
  intro ps
  induction ps with
  | nil => intro c c' _; exact ViewPrefixOf.nil _
  | cons p rest ih =>
    intro c c' hcc
    simp only [specRevealedView]
    by_cases hn : p.playEvents.length ≤ c
    · rw [if_pos hn, if_pos (le_trans hn hcc)]
      exact ViewPrefixOf.cons p _ _ (ih _ _ (by omega))
    · rw [if_neg hn]
      by_cases hn' : p.playEvents.length ≤ c'
      · rw [if_pos hn']
        by_cases hc : 0 < c
        · rw [if_pos hc]
          exact ViewPrefixOf.last _ p _ (playPrefixOf_of_take p c)
        · rw [if_neg hc]
          exact ViewPrefixOf.nil _
      · rw [if_neg hn']
        by_cases hc : 0 < c
        · have hc' : 0 < c' := by omega
          rw [if_pos hc, if_pos hc']
          refine ViewPrefixOf.last _ _ _ ?_
          simp only [PlayPrefixOf, List.length_take]
          have h1 : min c p.playEvents.length = c := by omega
          have h2 : min c c' = c := by omega
          simp [List.take_take, h1, h2]
        · rw [if_neg hc]
          exact ViewPrefixOf.nil _

/-! ### Session and tick lemmas -/

theorem replay_tick_full_plays (s : Session) : (replay_tick s).1.full_plays = s.full_plays := rfl

theorem replay_tick_total_events (s : Session) :
    (replay_tick s).1.total_events = s.total_events := rfl

theorem replay_tick_teams (s : Session) : (replay_tick s).1.teams = s.teams := rfl

theorem replay_tick_cursor (s : Session) :
    (replay_tick s).1.cursor =
      if s.cursor < s.total_events then s.cursor + 1 else s.cursor := rfl

theorem tickN_full_plays (s : Session) : ∀ n, (tickN s n).full_plays = s.full_plays := by
  intro n
  induction n with
  | zero => rfl
  | succ n ih => rw [tickN, replay_tick_full_plays, ih]

theorem tickN_total_events (s : Session) : ∀ n, (tickN s n).total_events = s.total_events := by
  intro n
  induction n with
  | zero => rfl
  | succ n ih => rw [tickN, replay_tick_total_events, ih]

theorem tickN_teams (s : Session) : ∀ n, (tickN s n).teams = s.teams := by
  intro n
  induction n with
  | zero => rfl
  | succ n ih => rw [tickN, replay_tick_teams, ih]

/-- Starting at or below `total_events`, the cursor after `n` ticks is the
starting cursor plus `n`, clamped at `total_events`. -/
theorem tickN_cursor (s : Session) (h : s.cursor ≤ s.total_events) :
    ∀ n, (tickN s n).cursor = min (s.cursor + n) s.total_events := by
  intro n
  induction n with
  | zero => simp only [tickN, Nat.add_zero]; omega
  | succ n ih =>
    rw [tickN, replay_tick_cursor, tickN_total_events, ih]
    by_cases hlt : min (s.cursor + n) s.total_events < s.total_events
    · rw [if_pos hlt]; omega
    · rw [if_neg hlt]; omega

theorem replay_tick_resp_teams (s : Session) : (replay_tick s).2.teams = s.teams := rfl

theorem replay_tick_resp_cursor (s : Session) :
    (replay_tick s).2.current_cursor = (replay_tick s).1.cursor := rfl

theorem replay_tick_resp_allPlays (s : Session) :
    (replay_tick s).2.allPlays = buildSimulatedPlays s.full_plays (replay_tick s).1.cursor := rfl

theorem replay_tick_resp_status (s : Session) :
    (replay_tick s).2.status =
      if s.total_events ≤ (replay_tick s).1.cursor then some "COMPLETE" else none := rfl

/-- The cursor value produced by the `t`-th poll against a freshly loaded
session: `t + 1`, clamped at `total_events`. -/
theorem tick_cursor_after (s0 : Session) (h0 : s0.cursor = 0) (t : Nat) :
    (replay_tick (tickN s0 t)).1.cursor = min (t + 1) s0.total_events := by
  rw [replay_tick_cursor, tickN_total_events, tickN_cursor s0 (by omega) t, h0]
  by_cases hlt : min (0 + t) s0.total_events < s0.total_events
  · rw [if_pos hlt]; omega
  · rw [if_neg hlt]; omega

theorem pollResponse_teams (s0 : Session) (t : Nat) :
    (pollResponse s0 t).teams = s0.teams := by
  rw [pollResponse, replay_tick_resp_teams]
  exact tickN_teams s0 t

theorem pollResponse_cursor (s0 : Session) (h0 : s0.cursor = 0) (t : Nat) :
    (pollResponse s0 t).current_cursor = min (t + 1) s0.total_events := by
  rw [pollResponse, replay_tick_resp_cursor, tick_cursor_after s0 h0 t]

theorem pollResponse_allPlays (s0 : Session) (h0 : s0.cursor = 0) (t : Nat) :
    (pollResponse s0 t).allPlays =
      specRevealedView s0.full_plays (min (t + 1) s0.total_events) := by
  rw [pollResponse, replay_tick_resp_allPlays, tickN_full_plays,
    buildSimulatedPlays_eq_spec, tick_cursor_after s0 h0 t]

theorem pollResponse_status (s0 : Session) (h0 : s0.cursor = 0) (t : Nat) :
    (pollResponse s0 t).status =
      if s0.total_events ≤ t + 1 then some "COMPLETE" else none := by
  rw [pollResponse, replay_tick_resp_status, tickN_total_events, tick_cursor_after s0 h0 t]
  by_cases hN : s0.total_events ≤ t + 1
  · rw [if_pos (by omega : s0.total_events ≤ min (t + 1) s0.total_events), if_pos hN]
  · rw [if_neg (by omega : ¬ s0.total_events ≤ min (t + 1) s0.total_events), if_neg hN]

/-! ### Consumer step lemmas -/

/-- A `"COMPLETE"` response makes the consumer exit untouched: the decision
logic (and the team-name update) is never reached. -/
theorem step_complete (st : ConsumerState) (data : TickResponse)
    (h : data.status = some "COMPLETE") :
    fetch_and_process_game_data st data = (st, .gameComplete) := by
  simp [fetch_and_process_game_data, h]

/-- `last_processed_at_bat_index` changes exactly on an `emit`, and then to
the emitted at-bat index. -/
theorem step_lastProcessed (st : ConsumerState) (data : TickResponse) :
    (fetch_and_process_game_data st data).1.last_processed_at_bat_index =
      match (fetch_and_process_game_data st data).2 with
      | .emit _ i _ _ => i
      | _ => st.last_processed_at_bat_index := by
  simp only [fetch_and_process_game_data]
  split
  · rfl
  · split
    · rfl
    · split
      · split
        · rfl
        · split
          · rfl
          · rfl
      · rfl

/-- What must have been true of the response and the state for a call to
emit: the game was not complete, the last revealed play exists, carries
the emitted at-bat index and a present result, and that index differs from
`last_processed_at_bat_index`. -/
theorem step_emit_elim (st : ConsumerState) (data : TickResponse) (hr : Bool)
    (i : Option Int) (tm d : String)
    (h : (fetch_and_process_game_data st data).2 = .emit hr i tm d) :
    data.status ≠ some "COMPLETE" ∧
      ∃ lp, data.allPlays.getLast? = some lp ∧ lp.about.atBatIndex = i ∧
        lp.result.isSome = true ∧ i ≠ st.last_processed_at_bat_index := by
  by_cases hst : data.status = some "COMPLETE"
  · rw [step_complete st data hst] at h; simp at h
  · refine ⟨hst, ?_⟩
    simp only [fetch_and_process_game_data, if_neg hst] at h
    cases hgl : data.allPlays.getLast? with
    | none => rw [hgl] at h; simp at h
    | some lp =>
      simp only [hgl] at h
      refine ⟨lp, rfl, ?_⟩
      cases hres : lp.result with
      | none => simp only [hres] at h; simp at h
      | some r =>
        simp only [hres] at h
        by_cases heq : lp.about.atBatIndex = st.last_processed_at_bat_index
        · rw [if_pos heq] at h; simp at h
        · rw [if_neg heq] at h
          by_cases hd : ¬ r.description.getD "" = ""
          · rw [if_pos hd] at h
            simp only [DetectorOutput.emit.injEq] at h
            obtain ⟨-, hi, -, -⟩ := h
            subst hi
            exact ⟨rfl, by simp [hres], heq⟩
          · rw [if_neg hd] at h; simp at h

/-- When the game is not complete and the last revealed play's result is
present with the already-processed at-bat index, the call only skips. -/
theorem step_skip_intro (st : ConsumerState) (data : TickResponse) (lp : Play)
    (h1 : data.status ≠ some "COMPLETE")
    (h2 : data.allPlays.getLast? = some lp)
    (h3 : lp.result.isSome = true)
    (h4 : lp.about.atBatIndex = st.last_processed_at_bat_index) :
    (fetch_and_process_game_data st data).2 = .skipAlreadyProcessed := by
  obtain ⟨r, hr⟩ := Option.isSome_iff_exists.mp h3
  simp only [fetch_and_process_game_data, if_neg h1, h2, hr, if_pos h4]

/-- The last play of a poll's revealed view is, metadata-wise, the stored
play at the position just before the view's length. -/
theorem pollLast_meta (s0 : Session) (h0 : s0.cursor = 0) (t : Nat) (lp : Play)
    (h : (pollResponse s0 t).allPlays.getLast? = some lp) :
    ∃ j : Fin s0.full_plays.length,
      (specRevealedView s0.full_plays (min (t + 1) s0.total_events)).length = j.val + 1 ∧
      (s0.full_plays.get j).about = lp.about ∧
      (s0.full_plays.get j).result = lp.result := by
  rw [pollResponse_allPlays s0 h0 t] at h
  have hne : specRevealedView s0.full_plays (min (t + 1) s0.total_events) ≠ [] := by
    intro he; rw [he] at h; simp at h
  have hlen : 0 < (specRevealedView s0.full_plays (min (t + 1) s0.total_events)).length :=
    List.length_pos.mpr hne
  have hgl : (specRevealedView s0.full_plays (min (t + 1) s0.total_events))[
      (specRevealedView s0.full_plays (min (t + 1) s0.total_events)).length - 1]? = some lp := by
    rw [← List.getLast?_eq_getElem?]; exact h
  have hle : (specRevealedView s0.full_plays (min (t + 1) s0.total_events)).length ≤
      s0.full_plays.length := specRevealedView_length_le _ _
  have hjlt : (specRevealedView s0.full_plays (min (t + 1) s0.total_events)).length - 1 <
      s0.full_plays.length := by omega
  have hq : s0.full_plays[
      (specRevealedView s0.full_plays (min (t + 1) s0.total_events)).length - 1]? =
      some (s0.full_plays.get ⟨_, hjlt⟩) := by
    simp [List.getElem?_eq_getElem hjlt]
  have hmeta := specRevealedView_get_meta s0.full_plays (min (t + 1) s0.total_events) _ lp _ hgl hq
  refine ⟨⟨_, hjlt⟩, ?_, hmeta.1.symm, hmeta.2.1.symm⟩
  show (specRevealedView s0.full_plays (min (t + 1) s0.total_events)).length =
    (specRevealedView s0.full_plays (min (t + 1) s0.total_events)).length - 1 + 1
  omega

/-- After an emission, as long as the revealed view has not grown past the
emitted play, `last_processed_at_bat_index` stays at the emitted index. -/
theorem lastProcessed_persists (s0 : Session) (h0 : s0.cursor = 0)
    (t1 : Nat) (b : Bool) (i : Option Int) (tm d : String)
    (hemit : consumerOutputAt s0 t1 = .emit b i tm d) :
    ∀ t2, t1 < t2 →
      ((specRevealedView s0.full_plays (min (t2 + 1) s0.total_events)).length =
          (specRevealedView s0.full_plays (min (t1 + 1) s0.total_events)).length →
        (consumerStateAt s0 t2).last_processed_at_bat_index = i) := by
  have hemit' : (fetch_and_process_game_data (consumerStateAt s0 t1)
      (pollResponse s0 t1)).2 = .emit b i tm d := hemit
  obtain ⟨hst1, lp1, hgl1, hidx1, hres1, hneq1⟩ :=
    step_emit_elim (consumerStateAt s0 t1) (pollResponse s0 t1) b i tm d hemit'
  obtain ⟨j1, hlen1, habout1, hres1'⟩ := pollLast_meta s0 h0 t1 lp1 hgl1
  intro t2 ht12
  induction t2, ht12 using Nat.le_induction with
  | base =>
    intro _
    show (fetch_and_process_game_data (consumerStateAt s0 t1)
        (pollResponse s0 t1)).1.last_processed_at_bat_index = i
    rw [step_lastProcessed, hemit']
  | succ t2 ht ih =>
    intro hlen21
    have m1 : (specRevealedView s0.full_plays (min (t1 + 1) s0.total_events)).length ≤
        (specRevealedView s0.full_plays (min (t2 + 1) s0.total_events)).length :=
      specRevealedView_length_mono _ _ _ (by omega)
    have m2 : (specRevealedView s0.full_plays (min (t2 + 1) s0.total_events)).length ≤
        (specRevealedView s0.full_plays (min (t2 + 1 + 1) s0.total_events)).length :=
      specRevealedView_length_mono _ _ _ (by omega)
    have hlen2 : (specRevealedView s0.full_plays (min (t2 + 1) s0.total_events)).length =
        (specRevealedView s0.full_plays (min (t1 + 1) s0.total_events)).length := by omega
    have hlp := ih hlen2
    show (fetch_and_process_game_data (consumerStateAt s0 t2)
        (pollResponse s0 t2)).1.last_processed_at_bat_index = i
    rw [step_lastProcessed]
    cases hout : (fetch_and_process_game_data (consumerStateAt s0 t2) (pollResponse s0 t2)).2 with
    | emit b' i' tm' d' =>
      obtain ⟨hst2, lp2, hgl2, hidx2, hres2, hneq2⟩ :=
        step_emit_elim (consumerStateAt s0 t2) (pollResponse s0 t2) b' i' tm' d' hout
      obtain ⟨j2, hlen2', habout2, -⟩ := pollLast_meta s0 h0 t2 lp2 hgl2
      have hj : j2 = j1 := Fin.ext (by omega)
      show i' = i
      rw [← hidx2, ← habout2, hj, habout1, hidx1]
    | gameComplete => exact hlp
    | waitingForPlays => exact hlp
    | skipAlreadyProcessed => exact hlp
    | noDescription => exact hlp
    | inProgress i' tm' b' pc => exact hlp

/-! ### Claims -/

/-- C1: for every loaded play list and cursor `c ≤ totalEvents`, the view
built by the slicing step of `replay_game_plays` is the spec's
prefix-consistent reconstruction — all plays whose cumulative event count
is at most `c` in full, then the one play `c` lands strictly inside
truncated to the remainder, and nothing beyond; a boundary cursor keeps
the boundary play in full and never yields an empty partial copy of the
next play. For event counts `[3, 2]` the views at cursors 2, 3, 4, 5 are
exactly the four lists the spec's scenario names. -/
theorem C1_slicing_prefix_consistent (ps : List Play) (c : Nat)
    (h : c ≤ totalEventsOf ps) :
    buildSimulatedPlays ps c = specRevealedView ps c ∧
    buildSimulatedPlays scenarioPlays 2 = [{ scenarioPlay0 with playEvents := [0, 1] }] ∧
    buildSimulatedPlays scenarioPlays 3 = [scenarioPlay0] ∧
    buildSimulatedPlays scenarioPlays 4 =
      [scenarioPlay0, { scenarioPlay1 with playEvents := [3] }] ∧
    buildSimulatedPlays scenarioPlays 5 = [scenarioPlay0, scenarioPlay1] :=
  ⟨buildSimulatedPlays_eq_spec ps c, rfl, rfl, rfl, rfl⟩

/-- Witness for C1 at the concrete scenario timeline and cursor 2. -/
theorem C1_slicing_prefix_consistent_witness :
    2 ≤ totalEventsOf scenarioPlays ∧
      (buildSimulatedPlays scenarioPlays 2 = specRevealedView scenarioPlays 2 ∧
        buildSimulatedPlays scenarioPlays 2 = [{ scenarioPlay0 with playEvents := [0, 1] }] ∧
        buildSimulatedPlays scenarioPlays 3 = [scenarioPlay0] ∧
        buildSimulatedPlays scenarioPlays 4 =
          [scenarioPlay0, { scenarioPlay1 with playEvents := [3] }] ∧
        buildSimulatedPlays scenarioPlays 5 = [scenarioPlay0, scenarioPlay1]) :=
  ⟨by decide, C1_slicing_prefix_consistent scenarioPlays 2 (by decide)⟩

/-- C2: starting from any session whose cursor is within bounds (a loaded
session starts at 0), the cursor is non-decreasing over `Tick` calls,
never exceeds `total_events` (so the `InvalidCursorState` condition is
unreachable), increments by exactly 1 per call while strictly below
`total_events`, and a (re)load stores a session whose cursor is 0. -/
theorem C2_cursor_monotone_bounded (s : Session) (h : s.cursor ≤ s.total_events) :
    (∀ n, (tickN s n).cursor ≤ (tickN s (n + 1)).cursor) ∧
    (∀ n, (tickN s n).cursor ≤ s.total_events) ∧
    (∀ n, (tickN s n).cursor < s.total_events →
      (tickN s (n + 1)).cursor = (tickN s n).cursor + 1) ∧
    (∀ (store : Store) (game_pk : Nat) (body : GameFeed),
      storeFind (load_game_session store game_pk (.response 200 body)).1 game_pk =
        some { full_plays := body.allPlays
               total_events := totalEventsOf body.allPlays
               cursor := 0
               teams := { home := body.homeName.getD "Unknown Home Team"
                          away := body.awayName.getD "Unknown Away Team" } }) := by
  refine ⟨?_, ?_, ?_, ?_⟩
  · intro n
    rw [tickN_cursor s h n, tickN_cursor s h (n + 1)]
    omega
  · intro n
    rw [tickN_cursor s h n]
    omega
  · intro n hlt
    rw [tickN_cursor s h n] at hlt ⊢
    rw [tickN_cursor s h (n + 1)]
    omega
  · intro store game_pk body
    simp [load_game_session, storeSet, storeFind]

/-- Witness for C2 at the scenario session. -/
theorem C2_cursor_monotone_bounded_witness :
    scenarioSession.cursor ≤ scenarioSession.total_events ∧
      ((∀ n, (tickN scenarioSession n).cursor ≤ (tickN scenarioSession (n + 1)).cursor) ∧
        (∀ n, (tickN scenarioSession n).cursor ≤ scenarioSession.total_events) ∧
        (∀ n, (tickN scenarioSession n).cursor < scenarioSession.total_events →
          (tickN scenarioSession (n + 1)).cursor = (tickN scenarioSession n).cursor + 1) ∧
        (∀ (store : Store) (game_pk : Nat) (body : GameFeed),
          storeFind (load_game_session store game_pk (.response 200 body)).1 game_pk =
            some { full_plays := body.allPlays
                   total_events := totalEventsOf body.allPlays
                   cursor := 0
                   teams := { home := body.homeName.getD "Unknown Home Team"
                              away := body.awayName.getD "Unknown Away Team" } })) :=
  ⟨by decide, C2_cursor_monotone_bounded scenarioSession (by decide)⟩

/-- C3: for cursors `c1 < c2` within bounds, the revealed view at `c1` is
a play-wise prefix of the view at `c2`: all but the last play coincide
positionally, and the last play of the smaller view is the same play or an
event-list truncation of the play at its position in the larger view. -/
theorem C3_view_prefix_monotone (ps : List Play) (c1 c2 : Nat)
    (h1 : c1 < c2) (h2 : c2 ≤ totalEventsOf ps) :
    ViewPrefixOf (buildSimulatedPlays ps c1) (buildSimulatedPlays ps c2) := by
  rw [buildSimulatedPlays_eq_spec, buildSimulatedPlays_eq_spec]
  exact specRevealedView_prefixOf ps c1 c2 (by omega)

/-- Witness for C3 at the scenario timeline, cursors 2 and 4. -/
theorem C3_view_prefix_monotone_witness :
    2 < 4 ∧ 4 ≤ totalEventsOf scenarioPlays ∧
      ViewPrefixOf (buildSimulatedPlays scenarioPlays 2) (buildSimulatedPlays scenarioPlays 4) :=
  ⟨by decide, by decide, C3_view_prefix_monotone scenarioPlays 2 4 (by decide) (by decide)⟩

/-- C4: once the cursor equals `total_events`, every further `Tick` is a
no-op — the session is unchanged by any number of calls, every call
returns the same response, and that response carries the full stored play
list, the final cursor, and the `"COMPLETE"` status. -/
theorem C4_tick_idempotent_after_complete (s : Session)
    (h1 : s.total_events = totalEventsOf s.full_plays)
    (h2 : s.cursor = s.total_events) :
    (∀ n, tickN s n = s) ∧
    (∀ n, (replay_tick (tickN s n)).2 = (replay_tick s).2) ∧
    (replay_tick s).2.allPlays = s.full_plays ∧
    (replay_tick s).2.current_cursor = s.total_events ∧
    (replay_tick s).2.status = some "COMPLETE" := by
  have hnot : ¬ s.cursor < s.total_events := by omega
  have hstate : (replay_tick s).1 = s := by
    simp only [replay_tick, if_neg hnot]
  have hfix : ∀ n, tickN s n = s := by
    intro n
    induction n with
    | zero => rfl
    | succ n ih => rw [tickN, ih, hstate]
  refine ⟨hfix, fun n => by rw [hfix n], ?_, ?_, ?_⟩
  · rw [replay_tick_resp_allPlays, replay_tick_cursor, if_neg hnot, h2, h1,
      buildSimulatedPlays_eq_spec]
    exact specRevealedView_full _ _ (le_refl _)
  · rw [replay_tick_resp_cursor, replay_tick_cursor, if_neg hnot, h2]
  · rw [replay_tick_resp_status, replay_tick_cursor, if_neg hnot, h2, if_pos (le_refl _)]

/-- Witness for C4 at the scenario session played to completion. -/
theorem C4_tick_idempotent_after_complete_witness :
    ({ scenarioSession with cursor := 5 } : Session).total_events =
        totalEventsOf ({ scenarioSession with cursor := 5 } : Session).full_plays ∧
    ({ scenarioSession with cursor := 5 } : Session).cursor =
        ({ scenarioSession with cursor := 5 } : Session).total_events ∧
      ((∀ n, tickN { scenarioSession with cursor := 5 } n = { scenarioSession with cursor := 5 }) ∧
        (∀ n, (replay_tick (tickN { scenarioSession with cursor := 5 } n)).2 =
          (replay_tick { scenarioSession with cursor := 5 }).2) ∧
        (replay_tick { scenarioSession with cursor := 5 }).2.allPlays =
          ({ scenarioSession with cursor := 5 } : Session).full_plays ∧
        (replay_tick { scenarioSession with cursor := 5 }).2.current_cursor =
          ({ scenarioSession with cursor := 5 } : Session).total_events ∧
        (replay_tick { scenarioSession with cursor := 5 }).2.status = some "COMPLETE") :=
  ⟨by decide, by decide,
    C4_tick_idempotent_after_complete { scenarioSession with cursor := 5 } (by decide) (by decide)⟩

/-- C5 counterexample: an upstream 503 (unavailable, per the claim) and an
upstream 404 (unknown identifier) produce the very same error value — the
`HTTPException(404, "Game not found")` — so the two failure kinds the
claim requires are not distinguishable by the caller. -/
theorem C5_counterexample_indistinguishable :
    (load_game_session [] 776259 (.response 503 emptyFeed)).2 =
      (load_game_session [] 776259 (.response 404 emptyFeed)).2 ∧
    (load_game_session [] 776259 (.response 503 emptyFeed)).2 =
      some (.httpException 404 "Game not found") :=
  ⟨rfl, rfl⟩

/-- C5 (amended): the loader either succeeds (any 200 response) returning
the play list and both team labels, or fails; every non-200 status yields
the one identical `404 "Game not found"` error, and a transport error
propagates as an unhandled exception — the loader does not distinguish an
unknown identifier from an unavailable upstream. -/
theorem C5_loader_error_taxonomy (store : Store) (game_pk status : Nat) (body : GameFeed)
    (h : status ≠ 200) :
    (load_game_session store game_pk (.response status body)).2 =
      some (.httpException 404 "Game not found") ∧
    (load_game_session store game_pk (.response 200 body)).2 = none ∧
    storeFind (load_game_session store game_pk (.response 200 body)).1 game_pk =
      some { full_plays := body.allPlays
             total_events := totalEventsOf body.allPlays
             cursor := 0
             teams := { home := body.homeName.getD "Unknown Home Team"
                        away := body.awayName.getD "Unknown Away Team" } } ∧
    (load_game_session store game_pk .transportError).2 = some .unhandledTransport := by
  refine ⟨?_, rfl, ?_, rfl⟩
  · simp [load_game_session, h]
  · simp [load_game_session, storeSet, storeFind]

/-- Witness for the amended C5 at upstream status 503. -/
theorem C5_loader_error_taxonomy_witness :
    (503 : Nat) ≠ 200 ∧
      ((load_game_session [] 776259 (.response 503 emptyFeed)).2 =
        some (.httpException 404 "Game not found") ∧
      (load_game_session [] 776259 (.response 200 emptyFeed)).2 = none ∧
      storeFind (load_game_session [] 776259 (.response 200 emptyFeed)).1 776259 =
        some { full_plays := emptyFeed.allPlays
               total_events := totalEventsOf emptyFeed.allPlays
               cursor := 0
               teams := { home := emptyFeed.homeName.getD "Unknown Home Team"
                          away := emptyFeed.awayName.getD "Unknown Away Team" } } ∧
      (load_game_session [] 776259 .transportError).2 = some .unhandledTransport) :=
  ⟨by decide, C5_loader_error_taxonomy [] 776259 503 emptyFeed (by decide)⟩

/-- C6: a failing load leaves `GAME_SESSIONS` exactly as it was — the
store value is unchanged, so in particular no partial session appears and
any pre-existing session for the identifier is untouched. -/
theorem C6_failed_load_leaves_store (store : Store) (game_pk : Nat) (fetch : FetchOutcome)
    (h : (load_game_session store game_pk fetch).2.isSome = true) :
    (load_game_session store game_pk fetch).1 = store ∧
    storeFind (load_game_session store game_pk fetch).1 game_pk = storeFind store game_pk := by
  cases fetch with
  | transportError => exact ⟨rfl, rfl⟩
  | response status body =>
    by_cases h200 : status = 200
    · subst h200
      simp [load_game_session] at h
    · have : (load_game_session store game_pk (.response status body)).1 = store := by
        simp [load_game_session, h200]
      exact ⟨this, by rw [this]⟩

/-- Witness for C6: a transport failure against a store that already holds
a session for the identifier. -/
theorem C6_failed_load_leaves_store_witness :
    (load_game_session [(776259, scenarioSession)] 776259 .transportError).2.isSome = true ∧
      ((load_game_session [(776259, scenarioSession)] 776259 .transportError).1 =
        [(776259, scenarioSession)] ∧
      storeFind (load_game_session [(776259, scenarioSession)] 776259 .transportError).1 776259 =
        storeFind [(776259, scenarioSession)] 776259) :=
  ⟨by decide, C6_failed_load_leaves_store [(776259, scenarioSession)] 776259 .transportError
    (by decide)⟩

/-- C7: the code has no single-flight protection. In the interleaving
where both handlers run their membership check before either fetch
completes, two upstream fetches are issued (the claim requires exactly
one); only the fully serialized schedule performs a single fetch. Both
schedules end with a session present. -/
theorem C7_concurrent_load_double_fetch :
    (runSchedule concInit [false, true, false, true]).fetchCount = 2 ∧
    (runSchedule concInit [false, false, true, true]).fetchCount = 1 ∧
    (runSchedule concInit [false, true, false, true]).sessionPresent = true := by
  decide

/-- C8: whenever the response's root `teams` object carries both (truthy)
labels, the batting side is resolved purely from the last play's
half-inning label — `"top"` gives the away label, `"bottom"` the home
label, anything else the unknown-team marker — and the resolution depends
on nothing of the play beyond its `about` object, so the collaborator's
raw batting-team field is never consulted. -/
theorem C8_batting_team_resolution (root : RootTeams) (g : TeamNames) (p : Play)
    (hName aName : String) (hh : root.home = some hName) (hh' : hName ≠ "")
    (ha : root.away = some aName) (ha' : aName ≠ "") :
    ((get_current_team_name root g p).1 =
      if p.about.halfInning = some "top" then aName
      else if p.about.halfInning = some "bottom" then hName
      else "Unknown Team") ∧
    (∀ q : Play, q.about = p.about →
      (get_current_team_name root g q).1 = (get_current_team_name root g p).1) := by
  have htr : (truthyStr root.home && truthyStr root.away) = true := by
    rw [hh, ha]
    simp [truthyStr, hh', ha']
  constructor
  · rw [get_current_team_name, if_pos htr]
    simp [battingName, hh, ha]
  · intro q hq
    rw [get_current_team_name, get_current_team_name, hq]

/-- Witness for C8: root labels `"Home Club"`/`"Away Club"`, a top-half
play. -/
theorem C8_batting_team_resolution_witness :
    ({ home := some "Home Club", away := some "Away Club" } : RootTeams).home =
        some "Home Club" ∧ "Home Club" ≠ "" ∧
    ({ home := some "Home Club", away := some "Away Club" } : RootTeams).away =
        some "Away Club" ∧ "Away Club" ≠ "" ∧
      (((get_current_team_name { home := some "Home Club", away := some "Away Club" }
          consumerInit.team_names scenarioPlay0).1 =
        if scenarioPlay0.about.halfInning = some "top" then "Away Club"
        else if scenarioPlay0.about.halfInning = some "bottom" then "Home Club"
        else "Unknown Team") ∧
      (∀ q : Play, q.about = scenarioPlay0.about →
        (get_current_team_name { home := some "Home Club", away := some "Away Club" }
            consumerInit.team_names q).1 =
          (get_current_team_name { home := some "Home Club", away := some "Away Club" }
              consumerInit.team_names scenarioPlay0).1)) :=
  ⟨rfl, by decide, rfl, by decide,
    C8_batting_team_resolution { home := some "Home Club", away := some "Away Club" }
      consumerInit.team_names scenarioPlay0 "Home Club" "Away Club" rfl (by decide) rfl (by decide)⟩

/-- C10: when the cursor lands strictly inside the `k`-th stored play, the
view is the first `k` plays followed by a truncated copy of play `k` whose
`about`, `result` and `matchup` (every field but `playEvents`) are those
of the stored play — in particular a present outcome record is retained —
while its event list is a strictly shorter prefix, so the outcome is
observable before all of the play's events are revealed. -/
theorem C10_partial_play_keeps_fields (ps : List Play) (k c : Nat) (hk : k < ps.length)
    (h1 : totalEventsOf (ps.take k) < c) (h2 : c < totalEventsOf (ps.take (k + 1))) :
    buildSimulatedPlays ps c =
      ps.take k ++ [{ ps.get ⟨k, hk⟩ with
        playEvents := (ps.get ⟨k, hk⟩).playEvents.take (c - totalEventsOf (ps.take k)) }] ∧
    ({ ps.get ⟨k, hk⟩ with
        playEvents := (ps.get ⟨k, hk⟩).playEvents.take (c - totalEventsOf (ps.take k)) } :
        Play).result = (ps.get ⟨k, hk⟩).result ∧
    ({ ps.get ⟨k, hk⟩ with
        playEvents := (ps.get ⟨k, hk⟩).playEvents.take (c - totalEventsOf (ps.take k)) } :
        Play).about = (ps.get ⟨k, hk⟩).about ∧
    ({ ps.get ⟨k, hk⟩ with
        playEvents := (ps.get ⟨k, hk⟩).playEvents.take (c - totalEventsOf (ps.take k)) } :
        Play).matchup = (ps.get ⟨k, hk⟩).matchup ∧
    c - totalEventsOf (ps.take k) < (ps.get ⟨k, hk⟩).playEvents.length := by
  refine ⟨?_, rfl, rfl, rfl, ?_⟩
  · rw [buildSimulatedPlays_eq_spec]
    exact specRevealedView_inside ps k c hk h1 h2
  · have := totalEventsOf_take_succ ps k hk
    omega

/-- Witness for C10: scenario timeline, cursor 4 inside play 1. -/
theorem C10_partial_play_keeps_fields_witness :
    1 < scenarioPlays.length ∧
    totalEventsOf (scenarioPlays.take 1) < 4 ∧
    4 < totalEventsOf (scenarioPlays.take 2) ∧
      (buildSimulatedPlays scenarioPlays 4 =
        scenarioPlays.take 1 ++ [{ scenarioPlays.get ⟨1, by decide⟩ with
          playEvents := (scenarioPlays.get ⟨1, by decide⟩).playEvents.take
            (4 - totalEventsOf (scenarioPlays.take 1)) }] ∧
      ({ scenarioPlays.get ⟨1, by decide⟩ with
          playEvents := (scenarioPlays.get ⟨1, by decide⟩).playEvents.take
            (4 - totalEventsOf (scenarioPlays.take 1)) } : Play).result =
        (scenarioPlays.get ⟨1, by decide⟩).result ∧
      ({ scenarioPlays.get ⟨1, by decide⟩ with
          playEvents := (scenarioPlays.get ⟨1, by decide⟩).playEvents.take
            (4 - totalEventsOf (scenarioPlays.take 1)) } : Play).about =
        (scenarioPlays.get ⟨1, by decide⟩).about ∧
      ({ scenarioPlays.get ⟨1, by decide⟩ with
          playEvents := (scenarioPlays.get ⟨1, by decide⟩).playEvents.take
            (4 - totalEventsOf (scenarioPlays.take 1)) } : Play).matchup =
        (scenarioPlays.get ⟨1, by decide⟩).matchup ∧
      4 - totalEventsOf (scenarioPlays.take 1) <
        (scenarioPlays.get ⟨1, by decide⟩).playEvents.length) :=
  ⟨by decide, by decide, by decide,
    C10_partial_play_keeps_fields scenarioPlays 1 4 (by decide) (by decide) (by decide)⟩

theorem emitIndex?_eq_some (o : DetectorOutput) (i : Option Int)
    (h : emitIndex? o = some i) : ∃ b tm d, o = .emit b i tm d := by
  cases o with
  | emit b j tm d =>
    simp only [emitIndex?, Option.some.injEq] at h
    exact ⟨b, tm, d, by rw [h]⟩
  | gameComplete => simp [emitIndex?] at h
  | waitingForPlays => simp [emitIndex?] at h
  | skipAlreadyProcessed => simp [emitIndex?] at h
  | noDescription => simp [emitIndex?] at h
  | inProgress a b c d => simp [emitIndex?] at h

/-- C9: against a loaded session whose plays carry pairwise distinct
at-bat indices, the polling consumer never emits the same at-bat index
twice; once an index has been emitted, any later poll whose last revealed
play carries a present result with that index produces no emission (it is
skipped, or the poll exits on the terminal status); and
`last_processed_at_bat_index` is updated exactly on an emission, to the
emitted index. -/
theorem C9_at_bat_dedup (s0 : Session) (h0 : s0.cursor = 0)
    (hinj : ∀ j k : Fin s0.full_plays.length,
      (s0.full_plays.get j).about.atBatIndex = (s0.full_plays.get k).about.atBatIndex → j = k) :
    (∀ t1 t2 i, t1 < t2 → emitIndex? (consumerOutputAt s0 t1) = some i →
      emitIndex? (consumerOutputAt s0 t2) ≠ some i) ∧
    (∀ t1 t2 i lp, t1 < t2 → emitIndex? (consumerOutputAt s0 t1) = some i →
      (pollResponse s0 t2).allPlays.getLast? = some lp → lp.result.isSome = true →
      lp.about.atBatIndex = i →
      consumerOutputAt s0 t2 = .skipAlreadyProcessed ∨
        consumerOutputAt s0 t2 = .gameComplete) ∧
    (∀ t, (consumerStateAt s0 (t + 1)).last_processed_at_bat_index =
      match emitIndex? (consumerOutputAt s0 t) with
      | some i => i
      | none => (consumerStateAt s0 t).last_processed_at_bat_index) := by
  have emitFacts : ∀ t b i tm d, consumerOutputAt s0 t = .emit b i tm d →
      ∃ j : Fin s0.full_plays.length,
        (specRevealedView s0.full_plays (min (t + 1) s0.total_events)).length = j.val + 1 ∧
        (s0.full_plays.get j).about.atBatIndex = i ∧
        i ≠ (consumerStateAt s0 t).last_processed_at_bat_index := by
    intro t b i tm d he
    obtain ⟨hst, lp, hgl, hidx, hres, hneq⟩ :=
      step_emit_elim (consumerStateAt s0 t) (pollResponse s0 t) b i tm d he
    obtain ⟨j, hlen, habout, -⟩ := pollLast_meta s0 h0 t lp hgl
    exact ⟨j, hlen, by rw [habout, hidx], hneq⟩
  refine ⟨?_, ?_, ?_⟩
  · intro t1 t2 i h12 he1 he2
    obtain ⟨b1, tm1, d1, hout1⟩ := emitIndex?_eq_some _ _ he1
    obtain ⟨b2, tm2, d2, hout2⟩ := emitIndex?_eq_some _ _ he2
    obtain ⟨j1, hlen1, hidx1, -⟩ := emitFacts t1 b1 i tm1 d1 hout1
    obtain ⟨j2, hlen2, hidx2, hneq2⟩ := emitFacts t2 b2 i tm2 d2 hout2
    have hj : j2 = j1 := hinj j2 j1 (by rw [hidx2, hidx1])
    have hlen12 : (specRevealedView s0.full_plays (min (t2 + 1) s0.total_events)).length =
        (specRevealedView s0.full_plays (min (t1 + 1) s0.total_events)).length := by
      rw [hlen1, hlen2, hj]
    exact hneq2 (lastProcessed_persists s0 h0 t1 b1 i tm1 d1 hout1 t2 h12 hlen12).symm
  · intro t1 t2 i lp h12 he1 hgl2 hres2 hidx2
    obtain ⟨b1, tm1, d1, hout1⟩ := emitIndex?_eq_some _ _ he1
    obtain ⟨j1, hlen1, hidx1, -⟩ := emitFacts t1 b1 i tm1 d1 hout1
    obtain ⟨j2, hlen2, habout2, -⟩ := pollLast_meta s0 h0 t2 lp hgl2
    have hj : j2 = j1 := hinj j2 j1 (by rw [habout2, hidx2, hidx1])
    have hlen12 : (specRevealedView s0.full_plays (min (t2 + 1) s0.total_events)).length =
        (specRevealedView s0.full_plays (min (t1 + 1) s0.total_events)).length := by
      rw [hlen1, hlen2, hj]
    have hpersist := lastProcessed_persists s0 h0 t1 b1 i tm1 d1 hout1 t2 h12 hlen12
    by_cases hst : (pollResponse s0 t2).status = some "COMPLETE"
    · right
      show (fetch_and_process_game_data (consumerStateAt s0 t2)
          (pollResponse s0 t2)).2 = .gameComplete
      rw [step_complete _ _ hst]
    · left
      exact step_skip_intro (consumerStateAt s0 t2) (pollResponse s0 t2) lp hst hgl2 hres2
        (by rw [hidx2, hpersist])
  · intro t
    show (fetch_and_process_game_data (consumerStateAt s0 t)
        (pollResponse s0 t)).1.last_processed_at_bat_index = _
    have hco : (fetch_and_process_game_data (consumerStateAt s0 t)
        (pollResponse s0 t)).2 = consumerOutputAt s0 t := rfl
    rw [step_lastProcessed, hco]
    cases ho : consumerOutputAt s0 t with
    | emit b j tm d => simp [emitIndex?]
    | gameComplete => simp [emitIndex?]
    | waitingForPlays => simp [emitIndex?]
    | skipAlreadyProcessed => simp [emitIndex?]
    | noDescription => simp [emitIndex?]
    | inProgress a b c d => simp [emitIndex?]

/-- Witness for C9 at the scenario session (two plays with distinct at-bat
indices). -/
theorem C9_at_bat_dedup_witness :
    scenarioSession.cursor = 0 ∧
    (∀ j k : Fin scenarioSession.full_plays.length,
      (scenarioSession.full_plays.get j).about.atBatIndex =
        (scenarioSession.full_plays.get k).about.atBatIndex → j = k) ∧
      ((∀ t1 t2 i, t1 < t2 →
        emitIndex? (consumerOutputAt scenarioSession t1) = some i →
        emitIndex? (consumerOutputAt scenarioSession t2) ≠ some i) ∧
      (∀ t1 t2 i lp, t1 < t2 →
        emitIndex? (consumerOutputAt scenarioSession t1) = some i →
        (pollResponse scenarioSession t2).allPlays.getLast? = some lp →
        lp.result.isSome = true → lp.about.atBatIndex = i →
        consumerOutputAt scenarioSession t2 = .skipAlreadyProcessed ∨
          consumerOutputAt scenarioSession t2 = .gameComplete) ∧
      (∀ t, (consumerStateAt scenarioSession (t + 1)).last_processed_at_bat_index =
        match emitIndex? (consumerOutputAt scenarioSession t) with
        | some i => i
        | none => (consumerStateAt scenarioSession t).last_processed_at_bat_index)) :=
  ⟨by decide, by decide, C9_at_bat_dedup scenarioSession (by decide) (by decide)⟩

end HomeRunApple
